import Mathlib

/-!
Verification of the SecureOps Workbench detection engine and
incident-evidence assembly pipeline.

The Python sources are shallowly embedded:
* JSON payloads (`dict` / `list` / scalars) become the inductive `Json`;
  the Python value `None` and the JSON value `null` are the same object
  in Python, so both are represented by `Json.null`.
* Database sessions become explicit lists of records; `select ... .first()`
  becomes `List.find?`, `ORDER BY` becomes a stable insertion sort, and
  `session.add` becomes list append.
* `datetime` columns are represented by their ISO-8601 strings (the code
  itself compares and sorts these strings), ordered lexicographically.
* Nondeterministic freshness (`uuid4()`, `utc_now()`) is threaded through
  as explicit generator arguments.
-/

namespace SecureOps

/-- A JSON-like value, the payload type of `Event.raw` (Python `dict`-like
data).  `Json.null` doubles as Python `None`. -/
inductive Json where
  | null : Json
  | bool : Bool → Json
  | num : Int → Json
  | str : String → Json
  | arr : List Json → Json
  | obj : List (String × Json) → Json
deriving Inhabited, BEq

/-- Lower-case hexadecimal digit, used by the JSON string escaper. -/
def hexDigit (n : Nat) : String :=
  String.singleton (Char.ofNat (if n < 10 then 48 + n else 87 + n))

/-- Escaping of one character inside a JSON string literal, as performed by
Python `json.dumps` with `ensure_ascii=False`. -/
def escapeChar (c : Char) : String :=
  if c = Char.ofNat 34 then "\\\""
  else if c = Char.ofNat 92 then "\\\\"
  else if c = Char.ofNat 10 then "\\n"
  else if c = Char.ofNat 9 then "\\t"
  else if c = Char.ofNat 13 then "\\r"
  else if c = Char.ofNat 8 then "\\b"
  else if c = Char.ofNat 12 then "\\f"
  else if c.toNat < 32 then "\\u00" ++ hexDigit (c.toNat / 16) ++ hexDigit (c.toNat % 16)
  else String.singleton c

/-- JSON string literal quoting, as `json.dumps` does for `str` values. -/
def jsonQuote (s : String) : String :=
  "\"" ++ String.join (s.data.map escapeChar) ++ "\""

/-- Model of Python `json.dumps(v, ensure_ascii=False)` with the default
separators `", "` and `": "` (used by `detect.run_detections` to build the
comparison haystack and by `reporting._event_summary`). -/
def dumps : Json → String
  | .null => "null"
  | .bool b => if b then "true" else "false"
  | .num n => toString n
  | .str s => jsonQuote s
  | .arr xs => "[" ++ String.intercalate ", " (xs.attach.map (fun x => dumps x.1)) ++ "]"
  | .obj fs =>
      "\x7b" ++
        String.intercalate ", "
          (fs.attach.map (fun f => jsonQuote f.1.1 ++ ": " ++ dumps f.1.2)) ++
      "\x7d"
decreasing_by
  · have := List.sizeOf_lt_of_mem x.2
    simp at this ⊢
    omega
  · rcases f with ⟨⟨a, b⟩, hf⟩
    have := List.sizeOf_lt_of_mem hf
    simp at this ⊢
    omega

/-- Python's substring operator `pat in hay`, on code points. -/
def strHasSubstr (hay pat : String) : Bool :=
  (List.range (hay.data.length + 1)).any
    (fun i => pat.data.isPrefixOf (hay.data.drop i))

/-- Helper of `splitOnDot`: split a character list at every dot. -/
def splitDotAux : List Char → List Char → List String
  | [], acc => [String.mk acc.reverse]
  | c :: cs, acc =>
      if c = Char.ofNat 46 then String.mk acc.reverse :: splitDotAux cs []
      else splitDotAux cs (c :: acc)

/-- Python `path.split(".")`: the empty string splits to `[""]`, and empty
segments between consecutive dots are kept. -/
def splitOnDot (s : String) : List String :=
  splitDotAux s.data []

/-- Python `str.lower()` (restricted to ASCII case folding, the only case
the rules and events in this code base exercise). -/
def lowerStr (s : String) : String :=
  String.mk (s.data.map Char.toLower)

/-- Python truthiness-relevant whitespace test for `str.strip()`. -/
def isPyWs (c : Char) : Bool :=
  c.toNat = 32 || (9 ≤ c.toNat && c.toNat ≤ 13)

/-- Python `str.strip()`: remove leading and trailing whitespace. -/
def stripStr (s : String) : String :=
  String.mk (((s.data.dropWhile isPyWs).reverse.dropWhile isPyWs).reverse)

/-- Python slicing `s[:n]` on code points. -/
def takeStr (n : Nat) (s : String) : String :=
  String.mk (s.data.take n)

/-- First-match lookup of a key in a JSON object's field list
(Python `part in cur` / `cur[part]` on a `dict`). -/
def lookupField (fields : List (String × Json)) (key : String) : Option Json :=
  match fields with
  | [] => none
  | (k, v) :: rest => if k = key then some v else lookupField rest key

/-- Lookup a key in a JSON value when it is an object; `none` otherwise
(Python `raw.get(k)` guarded by `isinstance(raw, dict)`). -/
def Json.getObj : Json → String → Option Json
  | .obj fields, key => lookupField fields key
  | _, _ => none

/-- True iff the value is a JSON object (Python `isinstance(v, dict)`). -/
def Json.isObj : Json → Bool
  | .obj _ => true
  | _ => false

/-- True iff the value is `null` (Python `v is None`). -/
def Json.isNull : Json → Bool
  | .null => true
  | _ => false

/-- Loop body of `detect._get_by_path`: walk the already-split path segments.
A segment applied to a non-object node, or a missing key, returns Python
`None`, i.e. `Json.null`. -/
def goPath : Json → List String → Json
  | cur, [] => cur
  | cur, part :: rest =>
      match cur with
      | .obj fields =>
          match lookupField fields part with
          | some v => goPath v rest
          | none => Json.null
      | _ => Json.null

/-- Model of `detect._get_by_path(obj, path)`: dot-path resolution against
dict-like JSON.  The Python function returns `None` both for an absent path
and for a stored JSON `null` leaf; both are `Json.null` here. -/
def get_by_path (obj : Json) (path : String) : Json :=
  goPath obj (splitOnDot path)

/-- Row of the `Rule` table (`models.Rule`).  Timestamps are ISO strings. -/
structure Rule where
  id : String
  created_at : String
  name : String
  severity : String
  mitre : List String
  description : String
  match_source : String
  match_field : String
  match_contains : String
deriving Inhabited, DecidableEq

/-- Row of the `Event` table (`models.Event`). -/
structure Event where
  id : String
  received_at : String
  source : String
  host : Option String
  user : Option String
  raw : Json
deriving Inhabited

/-- Row of the `Alert` table (`models.Alert`). -/
structure Alert where
  id : String
  created_at : String
  rule_id : String
  rule_name : String
  severity : String
  event_id : String
  source : String
  host : Option String
  user : Option String
  summary : String
deriving Inhabited, DecidableEq

/-- Single-quote character, used in alert summaries. -/
def squote : String := String.singleton (Char.ofNat 39)

/-- Comparison haystack built by `run_detections` line 39: the resolved value
itself when it is a string, its JSON serialization otherwise. -/
def haystackOf (v : Json) : String :=
  match v with
  | .str s => s
  | v => dumps v

/-- The per-(rule, event) match test performed inline by
`detect.run_detections` (lines 32-41): source pre-filter (with Python
truthiness on `match_source`), field resolution, `None` check and
case-insensitive substring containment. -/
def ruleMatches (r : Rule) (ev : Event) : Bool :=
  if r.match_source ≠ "" && r.match_source ≠ "*" && r.match_source ≠ ev.source then
    false
  else
    let value := get_by_path ev.raw r.match_field
    if value.isNull then
      false
    else
      strHasSubstr (lowerStr (haystackOf value)) (lowerStr r.match_contains)

/-- Existence check of `run_detections` lines 43-47: is there an alert with
this `event_id` and `rule_id` in the session (committed rows plus rows added
earlier in the same run, which autoflush makes visible)? -/
def hasPair (alerts : List Alert) (rid eid : String) : Bool :=
  alerts.any (fun a => a.event_id == eid && a.rule_id == rid)

/-- The alert record constructed by `run_detections` lines 49-61; `id` and
`created_at` come from the freshness generator (uuid4 / utc_now). -/
def mkAlert (i t : String) (r : Rule) (ev : Event) : Alert :=
  { id := i
    created_at := t
    rule_id := r.id
    rule_name := r.name
    severity := r.severity
    event_id := ev.id
    source := ev.source
    host := ev.host
    user := ev.user
    summary := r.name ++ ": " ++ r.match_field ++ " matched " ++
      squote ++ r.match_contains ++ squote }

/-- One inner-loop iteration of `run_detections` for a fixed event and rule:
skip on no match, skip on an existing alert for the pair, otherwise append
a new alert and bump the created counter.  `gen` supplies the fresh
`(id, created_at)` for the `n`-th alert created in the run. -/
def detectStep (gen : Nat → String × String) (r : Rule) (ev : Event)
    (st : List Alert × Nat) : List Alert × Nat :=
  if ruleMatches r ev then
    if hasPair st.1 r.id ev.id then st
    else (st.1 ++ [mkAlert (gen st.2).1 (gen st.2).2 r ev], st.2 + 1)
  else st

/-- Inner `for r in rules` loop of `run_detections`. -/
def runRules (gen : Nat → String × String) (ev : Event) :
    List Rule → List Alert × Nat → List Alert × Nat
  | [], st => st
  | r :: rs, st => runRules gen ev rs (detectStep gen r ev st)

/-- Outer `for ev in events` loop of `run_detections`. -/
def runEvents (gen : Nat → String × String) (rules : List Rule) :
    List Event → List Alert × Nat → List Alert × Nat
  | [], st => st
  | ev :: evs, st => runEvents gen rules evs (runRules gen ev rules st)

/-- Model of `detect.run_detections`: it receives the active rule set and the
bounded event window (already ordered and limited by the caller's queries),
the current alert table, and returns the final alert table plus the count of
alerts created.  The Python early return on an empty rule set is kept. -/
def run_detections (gen : Nat → String × String) (rules : List Rule)
    (events : List Event) (alerts0 : List Alert) : List Alert × Nat :=
  if rules.isEmpty then (alerts0, 0)
  else runEvents gen rules events (alerts0, 0)

/-- The dedup invariant of the alert table: at most one alert per
`(rule_id, event_id)` pair. -/
def pairInv (alerts : List Alert) : Prop :=
  alerts.Pairwise (fun a b => ¬(a.rule_id = b.rule_id ∧ a.event_id = b.event_id))

/-- Every (event, rule) pair of the window that matches is covered by an
alert already present in the table. -/
def covered (alerts : List Alert) (rules : List Rule) (events : List Event) : Prop :=
  ∀ ev ∈ events, ∀ r ∈ rules, ruleMatches r ev = true →
    hasPair alerts r.id ev.id = true

theorem detectStep_extend (gen : Nat → String × String) (r : Rule) (ev : Event)
    (st : List Alert × Nat) : ∃ t, (detectStep gen r ev st).1 = st.1 ++ t := by
  unfold detectStep
  split
  · split
    · exact ⟨[], by simp⟩
    · exact ⟨_, rfl⟩
  · exact ⟨[], by simp⟩

theorem runRules_extend (gen : Nat → String × String) (ev : Event)
    (rules : List Rule) (st : List Alert × Nat) :
    ∃ t, (runRules gen ev rules st).1 = st.1 ++ t := by
  induction rules generalizing st with
  | nil => exact ⟨[], by simp [runRules]⟩
  | cons r rs ih =>
    obtain ⟨t1, h1⟩ := detectStep_extend gen r ev st
    obtain ⟨t2, h2⟩ := ih (detectStep gen r ev st)
    exact ⟨t1 ++ t2, by rw [runRules, h2, h1, List.append_assoc]⟩

theorem runEvents_extend (gen : Nat → String × String) (rules : List Rule)
    (events : List Event) (st : List Alert × Nat) :
    ∃ t, (runEvents gen rules events st).1 = st.1 ++ t := by
  induction events generalizing st with
  | nil => exact ⟨[], by simp [runEvents]⟩
  | cons ev evs ih =>
    obtain ⟨t1, h1⟩ := runRules_extend gen ev rules st
    obtain ⟨t2, h2⟩ := ih (runRules gen ev rules st)
    exact ⟨t1 ++ t2, by rw [runEvents, h2, h1, List.append_assoc]⟩

theorem hasPair_append (l t : List Alert) (rid eid : String)
    (h : hasPair l rid eid = true) : hasPair (l ++ t) rid eid = true := by
  simp only [hasPair, List.any_append, Bool.or_eq_true]
  exact Or.inl h

theorem detectStep_covers (gen : Nat → String × String) (r : Rule) (ev : Event)
    (st : List Alert × Nat) (h : ruleMatches r ev = true) :
    hasPair (detectStep gen r ev st).1 r.id ev.id = true := by
  unfold detectStep
  rw [h]
  simp only [if_true]
  split
  case isTrue hp => exact hp
  case isFalse hp =>
    simp [hasPair, List.any_append, mkAlert]

theorem runRules_covers (gen : Nat → String × String) (ev : Event)
    (rules : List Rule) (st : List Alert × Nat) (r : Rule) (hr : r ∈ rules)
    (hm : ruleMatches r ev = true) :
    hasPair (runRules gen ev rules st).1 r.id ev.id = true := by
  induction rules generalizing st with
  | nil => cases hr
  | cons r0 rs ih =>
    rw [runRules]
    rcases List.mem_cons.mp hr with heq | hmem
    · subst heq
      obtain ⟨t, ht⟩ := runRules_extend gen ev rs (detectStep gen r ev st)
      rw [ht]
      exact hasPair_append _ _ _ _ (detectStep_covers gen r ev st hm)
    · exact ih _ hmem

theorem runEvents_covers (gen : Nat → String × String) (rules : List Rule)
    (events : List Event) (st : List Alert × Nat) :
    covered (runEvents gen rules events st).1 rules events := by
  induction events generalizing st with
  | nil => intro ev hev; cases hev
  | cons ev0 evs ih =>
    intro ev hev r hr hm
    rw [runEvents]
    rcases List.mem_cons.mp hev with heq | hmem
    · subst heq
      obtain ⟨t, ht⟩ := runEvents_extend gen rules evs (runRules gen ev rules st)
      rw [ht]
      exact hasPair_append _ _ _ _ (runRules_covers gen ev rules st r hr hm)
    · exact ih _ ev hmem r hr hm

theorem detectStep_inv (gen : Nat → String × String) (r : Rule) (ev : Event)
    (st : List Alert × Nat) (h : pairInv st.1) :
    pairInv (detectStep gen r ev st).1 := by
  unfold detectStep
  split
  case isFalse => exact h
  case isTrue hm =>
    split
    case isTrue => exact h
    case isFalse hp =>
      unfold pairInv at h ⊢
      rw [List.pairwise_append]
      refine ⟨h, List.pairwise_singleton _ _, ?_⟩
      intro a ha b hb
      simp only [List.mem_singleton] at hb
      subst hb
      simp only [hasPair, List.any_eq_true, Bool.and_eq_true, beq_iff_eq,
        not_exists, not_and] at hp
      push_neg at hp
      intro hcon
      obtain ⟨h1, h2⟩ := hcon
      simp only [mkAlert] at h1 h2
      exact (hp a ha h2) h1

theorem runRules_inv (gen : Nat → String × String) (ev : Event)
    (rules : List Rule) (st : List Alert × Nat) (h : pairInv st.1) :
    pairInv (runRules gen ev rules st).1 := by
  induction rules generalizing st with
  | nil => exact h
  | cons r rs ih => exact ih _ (detectStep_inv gen r ev st h)

theorem runEvents_inv (gen : Nat → String × String) (rules : List Rule)
    (events : List Event) (st : List Alert × Nat) (h : pairInv st.1) :
    pairInv (runEvents gen rules events st).1 := by
  induction events generalizing st with
  | nil => exact h
  | cons ev evs ih => exact ih _ (runRules_inv gen ev rules st h)

theorem detectStep_noop (gen : Nat → String × String) (r : Rule) (ev : Event)
    (st : List Alert × Nat)
    (h : ruleMatches r ev = true → hasPair st.1 r.id ev.id = true) :
    detectStep gen r ev st = st := by
  unfold detectStep
  split
  case isFalse => rfl
  case isTrue hm =>
    rw [h hm]
    simp

theorem runRules_noop (gen : Nat → String × String) (ev : Event)
    (rules : List Rule) (st : List Alert × Nat)
    (h : ∀ r ∈ rules, ruleMatches r ev = true → hasPair st.1 r.id ev.id = true) :
    runRules gen ev rules st = st := by
  induction rules with
  | nil => rfl
  | cons r rs ih =>
    rw [runRules, detectStep_noop gen r ev st (h r (List.mem_cons_self r rs))]
    exact ih (fun r' hr' => h r' (List.mem_cons_of_mem r hr'))

theorem runEvents_noop (gen : Nat → String × String) (rules : List Rule)
    (events : List Event) (st : List Alert × Nat)
    (h : covered st.1 rules events) :
    runEvents gen rules events st = st := by
  induction events with
  | nil => rfl
  | cons ev evs ih =>
    rw [runEvents,
      runRules_noop gen ev rules st (fun r hr => h ev (List.mem_cons_self ev evs) r hr)]
    exact ih (fun ev' hev' r hr => h ev' (List.mem_cons_of_mem ev hev') r hr)

/-- C1: for every store state, rule set and event window, the detection
engine preserves the at-most-one-alert-per-(rule_id, event_id) invariant,
and a second run over an identical rule/event window creates zero new
alerts and leaves the alert table exactly as after the first run, whatever
fresh ids and timestamps either run would draw. -/
theorem C1_detection_idempotent (gen gen2 : Nat → String × String)
    (rules : List Rule) (events : List Event) (alerts0 : List Alert)
    (h : pairInv alerts0) :
    pairInv (run_detections gen rules events alerts0).1 ∧
    run_detections gen2 rules events (run_detections gen rules events alerts0).1 =
      ((run_detections gen rules events alerts0).1, 0) := by
  unfold run_detections
  split
  case isTrue => exact ⟨h, by simp⟩
  case isFalse hne =>
    refine ⟨runEvents_inv gen rules events (alerts0, 0) h, ?_⟩
    exact runEvents_noop gen2 rules events
      ((runEvents gen rules events (alerts0, 0)).1, 0)
      (runEvents_covers gen rules events (alerts0, 0))

/-- Concrete rule used by the executable witnesses. -/
def wRule : Rule :=
  { id := "r1", created_at := "t0", name := "root watch", severity := "high",
    mitre := [], description := "",
    match_source := "*", match_field := "userIdentity.userName",
    match_contains := "root" }

/-- Concrete event used by the executable witnesses. -/
def wEvent : Event :=
  { id := "e1", received_at := "t1", source := "aws-cloudtrail",
    host := some "h1", user := some "u1",
    raw := Json.obj [("userIdentity", Json.obj [("userName", Json.str "rootuser")])] }

/-- Fresh-id generator used by the executable witnesses. -/
def wGen : Nat → String × String := fun n => ("alert" ++ toString n, "t2")

theorem C1_detection_idempotent_witness :
    pairInv ([] : List Alert) ∧
    (pairInv (run_detections wGen [wRule] [wEvent] []).1 ∧
     run_detections wGen [wRule] [wEvent] (run_detections wGen [wRule] [wEvent] []).1 =
       ((run_detections wGen [wRule] [wEvent] []).1, 0)) :=
  ⟨List.Pairwise.nil,
   C1_detection_idempotent wGen wGen [wRule] [wEvent] [] List.Pairwise.nil⟩

/-- Matcher as claim C2 words it: `match_source` must be `"*"` or equal to
the event source (otherwise false); the field must resolve to a present
(non-`None`) value; and the lower-cased `match_contains` must occur in the
lower-cased comparison string. -/
def claimMatchesC2 (r : Rule) (ev : Event) : Bool :=
  (r.match_source == "*" || r.match_source == ev.source) &&
  !(get_by_path ev.raw r.match_field).isNull &&
  strHasSubstr (lowerStr (haystackOf (get_by_path ev.raw r.match_field)))
    (lowerStr r.match_contains)

/-- Rule with an empty `match_source`, refuting C2 as stated. -/
def rC2 : Rule :=
  { id := "r2", created_at := "t0", name := "empty source", severity := "low",
    mitre := [], description := "",
    match_source := "", match_field := "f", match_contains := "x" }

/-- Event whose source an empty `match_source` neither equals nor wildcards. -/
def evC2 : Event :=
  { id := "e2", received_at := "t1", source := "syslog",
    host := none, user := none,
    raw := Json.obj [("f", Json.str "X")] }

/-- C2 as stated is false: the code guards the source pre-filter with Python
truthiness (`if r.match_source and ...`), so a rule whose `match_source` is
the empty string matches events of any source, where the claim requires the
matcher to return false. -/
theorem C2_counterexample :
    ruleMatches rC2 evC2 = true ∧ claimMatchesC2 rC2 evC2 = false := by
  constructor <;> decide

/-- C2 amended: the matcher returns true iff (1) `match_source` is empty,
equals `"*"`, or equals the event source; (2) `match_field` resolves to a
present (non-null) value; and (3) the lower-cased `match_contains` occurs in
the lower-cased comparison string (the value itself when a string, its JSON
serialization otherwise); an empty `match_contains` satisfies the substring
test for every resolved value. -/
theorem C2_matcher_amended (r : Rule) (ev : Event) :
    (ruleMatches r ev = true ↔
      ((r.match_source = "" ∨ r.match_source = "*" ∨ r.match_source = ev.source) ∧
       (get_by_path ev.raw r.match_field).isNull = false ∧
       strHasSubstr (lowerStr (haystackOf (get_by_path ev.raw r.match_field)))
         (lowerStr r.match_contains) = true)) ∧
    (∀ v : Json, strHasSubstr (lowerStr (haystackOf v)) (lowerStr "") = true) := by
  constructor
  · unfold ruleMatches
    by_cases h1 : r.match_source = "" <;>
      by_cases h2 : r.match_source = "*" <;>
        by_cases h3 : r.match_source = ev.source <;>
          cases hn : (get_by_path ev.raw r.match_field).isNull <;>
            simp [h1, h2, h3, hn]
  · intro v
    simp only [strHasSubstr, lowerStr, List.any_eq_true, List.mem_range]
    exact ⟨0, Nat.succ_pos _, by simp⟩

/-- Shared helper: when the field path resolves to Python `None` (absent
path or stored JSON `null`), the matcher returns false. -/
theorem ruleMatches_eq_false_of_null (r : Rule) (ev : Event)
    (h : get_by_path ev.raw r.match_field = Json.null) :
    ruleMatches r ev = false := by
  unfold ruleMatches
  split
  · rfl
  · rw [h]
    rfl

/-- C3: path resolution is total; a segment applied to a non-mapping node or
to a mapping without that key yields absent, resolution descends only
through mappings that contain the segment, and an absent resolution makes
the matcher return false rather than an error. -/
theorem C3_resolution_total :
    (∀ (cur : Json) (part : String) (rest : List String),
        (∀ fields, cur = Json.obj fields → lookupField fields part = none) →
        goPath cur (part :: rest) = Json.null) ∧
    (∀ (fields : List (String × Json)) (part : String) (rest : List String) (v : Json),
        lookupField fields part = some v →
        goPath (Json.obj fields) (part :: rest) = goPath v rest) ∧
    (∀ (r : Rule) (ev : Event),
        get_by_path ev.raw r.match_field = Json.null →
        ruleMatches r ev = false) := by
  refine ⟨?_, ?_, ?_⟩
  · intro cur part rest h
    cases cur with
    | obj fields => rw [goPath, h fields rfl]
    | null => rfl
    | bool b => rfl
    | num n => rfl
    | str s => rfl
    | arr xs => rfl
  · intro fields part rest v h
    rw [goPath, h]
  · exact ruleMatches_eq_false_of_null

theorem C3_resolution_total_witness :
    (∀ fields, Json.obj [("g", Json.num 1)] = Json.obj fields →
      lookupField fields "f" = none) ∧
    goPath (Json.obj [("g", Json.num 1)]) ["f"] = Json.null ∧
    lookupField [("f", Json.str "v")] "f" = some (Json.str "v") ∧
    goPath (Json.obj [("f", Json.str "v")]) ["f"] = goPath (Json.str "v") [] ∧
    get_by_path wEvent.raw "nope" = Json.null ∧
    ruleMatches { wRule with match_field := "nope" } wEvent = false := by
  have h1 : ∀ fields, Json.obj [("g", Json.num 1)] = Json.obj fields →
      lookupField fields "f" = none := by
    intro fields h
    injection h.symm with h2
    rw [h2]
    rfl
  exact ⟨h1, C3_resolution_total.1 _ "f" [] h1, rfl,
    C3_resolution_total.2.1 _ "f" [] _ rfl, rfl,
    C3_resolution_total.2.2 _ wEvent rfl⟩

/-- Resolver as claim C10 words it: distinguishes a present JSON `null`
leaf (`some Json.null`) from an absent path (`none`). -/
def resolvePresent : Json → List String → Option Json
  | cur, [] => some cur
  | cur, part :: rest =>
      match cur with
      | .obj fields =>
          match lookupField fields part with
          | some v => resolvePresent v rest
          | none => none
      | _ => none

/-- C10: when `match_field` resolves to a present JSON `null` value, the
code cannot distinguish it from an absent path (both come back as Python
`None`), so the matcher returns false — whatever `match_contains` says,
including `"null"` or `""` — and the detection step creates no alert. -/
theorem C10_null_leaf_no_match :
    (∀ (t : Json) (parts : List String),
        resolvePresent t parts = some Json.null → goPath t parts = Json.null) ∧
    (∀ (r : Rule) (ev : Event),
        resolvePresent ev.raw (splitOnDot r.match_field) = some Json.null →
        ruleMatches r ev = false ∧
        ∀ (gen : Nat → String × String) (st : List Alert × Nat),
          detectStep gen r ev st = st) := by
  have key : ∀ (parts : List String) (t : Json),
      resolvePresent t parts = some Json.null → goPath t parts = Json.null := by
    intro parts
    induction parts with
    | nil =>
      intro t h
      simp only [resolvePresent, Option.some.injEq] at h
      subst h
      rfl
    | cons part rest ih =>
      intro t h
      cases t with
      | obj fields =>
        simp only [resolvePresent] at h
        simp only [goPath]
        cases hl : lookupField fields part with
        | some v =>
          rw [hl] at h
          exact ih v h
        | none => rfl
      | null => simp [resolvePresent] at h
      | bool b => simp [resolvePresent] at h
      | num n => simp [resolvePresent] at h
      | str s => simp [resolvePresent] at h
      | arr xs => simp [resolvePresent] at h
  refine ⟨fun t parts => key parts t, ?_⟩
  intro r ev h
  have hnull : get_by_path ev.raw r.match_field = Json.null :=
    key (splitOnDot r.match_field) ev.raw h
  have hm := ruleMatches_eq_false_of_null r ev hnull
  refine ⟨hm, fun gen st => ?_⟩
  unfold detectStep
  rw [hm]
  simp

/-- Rule looking for the literal text `"null"`. -/
def rC10 : Rule := { wRule with match_field := "f", match_contains := "null" }

/-- Rule with an empty `match_contains`. -/
def rC10e : Rule := { wRule with match_field := "f", match_contains := "" }

/-- Event whose `f` field holds a JSON `null` leaf. -/
def evC10 : Event := { wEvent with raw := Json.obj [("f", Json.null)] }

theorem C10_null_leaf_no_match_witness :
    resolvePresent (Json.obj [("f", Json.null)]) ["f"] = some Json.null ∧
    goPath (Json.obj [("f", Json.null)]) ["f"] = Json.null ∧
    resolvePresent evC10.raw (splitOnDot rC10.match_field) = some Json.null ∧
    ruleMatches rC10 evC10 = false ∧
    ruleMatches rC10e evC10 = false ∧
    detectStep wGen rC10 evC10 ([], 0) = ([], 0) :=
  ⟨rfl, C10_null_leaf_no_match.1 _ ["f"] rfl, rfl,
   (C10_null_leaf_no_match.2 rC10 evC10 rfl).1,
   (C10_null_leaf_no_match.2 rC10e evC10 rfl).1,
   (C10_null_leaf_no_match.2 rC10 evC10 rfl).2 wGen ([], 0)⟩

/-- Row of the `Incident` table (`models.Incident`). -/
structure Incident where
  id : String
  created_at : String
  updated_at : String
  title : String
  severity : String
  status : String
  description : String
deriving Inhabited, DecidableEq

/-- Row of the `IncidentAlert` association table (`models.IncidentAlert`). -/
structure IncidentAlert where
  incident_id : String
  alert_id : String
  added_at : String
deriving Inhabited, DecidableEq

/-- Row of the `IncidentAction` table (`models.IncidentAction`). -/
structure IncidentAction where
  id : String
  incident_id : String
  created_at : String
  actor : Option String
  action_type : String
  summary : String
  details : Option Json
deriving Inhabited

/-- Row of the `EvidenceFile` table (`models.EvidenceFile`). -/
structure EvidenceFile where
  id : String
  incident_id : String
  created_at : String
  filename : String
  content_type : String
  sha256 : String
  size_bytes : Nat
deriving Inhabited, DecidableEq

/-- The store: one list of rows per table. -/
structure DB where
  incidents : List Incident
  alerts : List Alert
  incident_alerts : List IncidentAlert
  incident_actions : List IncidentAction
  events : List Event
  evidence : List EvidenceFile
deriving Inhabited

/-- The `scope` object of a packet. -/
structure Scope where
  window_start : String
  window_end : String
  hosts : List String
  users : List String
  sources : List String
  ips : List String
deriving Inhabited

/-- One entry of the packet timeline (the dict built at reporting.py
lines 155-176); `type` is `"alert"` or `"event"`. -/
structure TimelineEntry where
  time : String
  type : String
  source : String
  host : Option String
  user : Option String
  summary : String
deriving Inhabited, DecidableEq

/-- The incident packet returned by `build_incident_packet`. -/
structure Packet where
  incident : Incident
  scope : Scope
  alerts : List Alert
  timeline : List TimelineEntry
  actions : List IncidentAction
deriving Inhabited

/-- Helper of `_uniq`: drop falsy (empty) strings and previously seen
values, keeping first occurrences. -/
def uniqAux (seen : List String) : List String → List String
  | [] => []
  | x :: xs =>
      if x = "" then uniqAux seen xs
      else if x ∈ seen then uniqAux seen xs
      else x :: uniqAux (x :: seen) xs

/-- The `_uniq` closure inside `reporting.build_incident_packet`
(lines 132-142): de-duplicate preserving order, skipping falsy values. -/
def _uniq (l : List String) : List String := uniqAux [] l

/-- Order-preserving de-duplication at the end of `reporting._extract_ips`
(lines 62-69); unlike `_uniq` it keeps empty strings (none can occur since
every collected ip is non-blank). -/
def dedupAux (seen : List String) : List String → List String
  | [] => []
  | x :: xs =>
      if x ∈ seen then dedupAux seen xs
      else x :: dedupAux (x :: seen) xs

/-- The fixed set of conventional IP-bearing key names probed by
`reporting._extract_ips`. -/
def ipKeys : List String :=
  ["src_ip", "source_ip", "client_ip", "remote_ip", "ip", "src", "dst_ip", "dest_ip"]

/-- The ips contributed by one key of the raw payload
(`reporting._extract_ips` lines 53-59): a non-blank string value is taken
stripped; a list value is flattened to its non-blank string items. -/
def ipContribution (raw : Json) (k : String) : List String :=
  match raw.getObj k with
  | some (.str s) => if stripStr s ≠ "" then [stripStr s] else []
  | some (.arr items) =>
      items.filterMap (fun it =>
        match it with
        | .str s => if stripStr s ≠ "" then some (stripStr s) else none
        | _ => none)
  | _ => []

/-- Concatenation of the contributions of a list of probe keys. -/
def collectIpsAux (raw : Json) : List String → List String
  | [] => []
  | k :: ks => ipContribution raw k ++ collectIpsAux raw ks

/-- Model of `reporting._extract_ips(raw)`. -/
def _extract_ips (raw : Json) : List String :=
  dedupAux [] (collectIpsAux raw ipKeys)

/-- The fixed preference list of payload keys tried by
`reporting._event_summary`. -/
def summaryKeys : List String :=
  ["message", "summary", "event", "msg", "log", "description"]

/-- First non-blank string value among the preferred keys, already stripped
and truncated to 220 characters. -/
def firstSummary (raw : Json) : List String → Option String
  | [] => none
  | k :: ks =>
      match raw.getObj k with
      | some (.str s) =>
          if stripStr s ≠ "" then some (takeStr 220 (stripStr s))
          else firstSummary raw ks
      | _ => firstSummary raw ks

/-- Model of `reporting._event_summary(raw)`: preferred key if any,
otherwise a 220-character JSON snippet of the payload. -/
def _event_summary (raw : Json) : String :=
  match firstSummary raw summaryKeys with
  | some s => s
  | none => takeStr 220 (dumps raw)

/-- Python truthiness filter on an optional string column
(`if a.host: hosts.append(a.host)`). -/
def optStr : Option String → List String
  | some s => if s ≠ "" then [s] else []
  | none => []

/-- Python truthiness filter on a required string column. -/
def reqStr (s : String) : List String :=
  if s ≠ "" then [s] else []

/-- Lexicographic strict comparison of code-point lists
(Python's `<` on strings). -/
def natListLT : List Nat → List Nat → Bool
  | [], [] => false
  | [], _ :: _ => true
  | _ :: _, [] => false
  | a :: as, b :: bs => if a = b then natListLT as bs else decide (a < b)

/-- Lexicographic non-strict comparison of code-point lists
(Python's `<=` on strings). -/
def natListLE : List Nat → List Nat → Bool
  | [], _ => true
  | _ :: _, [] => false
  | a :: as, b :: bs => if a = b then natListLE as bs else decide (a < b)

/-- The code points of a string. -/
def codes (s : String) : List Nat := s.data.map Char.toNat

/-- Python `a < b` on strings (code-point lexicographic). -/
def strLT (a b : String) : Bool := natListLT (codes a) (codes b)

/-- Python `a <= b` on strings (code-point lexicographic). -/
def strLE (a b : String) : Bool := natListLE (codes a) (codes b)

theorem natListLE_refl : ∀ l : List Nat, natListLE l l = true := by
  intro l
  induction l with
  | nil => rfl
  | cons c cs ih => simp [natListLE, ih]

theorem strLE_refl (s : String) : strLE s s = true := natListLE_refl _

theorem natListLE_total : ∀ a b : List Nat, natListLE a b || natListLE b a := by
  intro a
  induction a with
  | nil => intro b; simp [natListLE]
  | cons x xs ih =>
    intro b
    cases b with
    | nil => simp [natListLE]
    | cons y ys =>
      by_cases hxy : x = y
      · subst hxy
        simpa [natListLE] using ih ys
      · have hne : y ≠ x := fun h => hxy h.symm
        simp only [natListLE, if_neg hxy, if_neg hne, Bool.or_eq_true, decide_eq_true_eq]
        omega

theorem natListLE_trans :
    ∀ a b c : List Nat, natListLE a b = true → natListLE b c = true →
      natListLE a c = true := by
  intro a
  induction a with
  | nil => intro b c _ _; rfl
  | cons x xs ih =>
    intro b c h1 h2
    cases b with
    | nil => simp [natListLE] at h1
    | cons y ys =>
      cases c with
      | nil => simp [natListLE] at h2
      | cons z zs =>
        simp only [natListLE] at h1 h2 ⊢
        by_cases hxy : x = y <;> by_cases hyz : y = z
        · subst hxy; subst hyz
          rw [if_pos rfl] at h1 h2 ⊢
          exact ih ys zs h1 h2
        · subst hxy
          rw [if_pos rfl] at h1
          rw [if_neg hyz] at h2 ⊢
          exact h2
        · subst hyz
          rw [if_neg hxy] at h1 ⊢
          exact h1
        · rw [if_neg hxy] at h1
          rw [if_neg hyz] at h2
          simp only [decide_eq_true_eq] at h1 h2
          have hxz : x < z := Nat.lt_trans h1 h2
          have hne : x ≠ z := by omega
          rw [if_neg hne]
          simp only [decide_eq_true_eq]
          exact hxz

/-- Ascending order on `Alert.created_at` (`ORDER BY Alert.created_at ASC`;
timestamps are their ISO strings, compared as Python compares the
underlying values). -/
def alertLE (a b : Alert) : Prop := strLE a.created_at b.created_at = true

instance : DecidableRel alertLE :=
  fun a b => inferInstanceAs (Decidable (strLE a.created_at b.created_at = true))

/-- Ascending order on `IncidentAction.created_at`. -/
def actionLE (a b : IncidentAction) : Prop := strLE a.created_at b.created_at = true

instance : DecidableRel actionLE :=
  fun a b => inferInstanceAs (Decidable (strLE a.created_at b.created_at = true))

/-- Order of the timeline sort (`timeline.sort(key=lambda t: t["time"])`). -/
def entryLE (x y : TimelineEntry) : Prop := strLE x.time y.time = true

instance : DecidableRel entryLE :=
  fun a b => inferInstanceAs (Decidable (strLE a.time b.time = true))

instance : IsTotal TimelineEntry entryLE :=
  ⟨fun a b => by
    have := natListLE_total (codes a.time) (codes b.time)
    rcases Bool.or_eq_true _ _ |>.mp this with h | h
    · exact Or.inl h
    · exact Or.inr h⟩

instance : IsTrans TimelineEntry entryLE :=
  ⟨fun _ _ _ h1 h2 => natListLE_trans _ _ _ h1 h2⟩

/-- The alerts linked to an incident via `IncidentAlert`, ordered by
creation time ascending (`build_incident_packet` lines 77-82; the stable
sort determinizes the tie order the SQL query leaves open). -/
def linkedAlerts (db : DB) (iid : String) : List Alert :=
  List.insertionSort alertLE
    (db.alerts.filter (fun a =>
      db.incident_alerts.any (fun l => l.incident_id == iid && l.alert_id == a.id)))

/-- The incident's actions ordered by creation time ascending
(`build_incident_packet` lines 84-88). -/
def sortedActions (db : DB) (iid : String) : List IncidentAction :=
  List.insertionSort actionLE
    (db.incident_actions.filter (fun a => a.incident_id == iid))

/-- The `events_by_id.get(a.event_id)` lookup (lines 91-95, 113, 165):
alerts with a falsy `event_id` are never fetched. -/
def lookupEvent (db : DB) (a : Alert) : Option Event :=
  if a.event_id = "" then none
  else db.events.find? (fun e => e.id == a.event_id)

/-- Accumulator of the scope collection loop (lines 98-123). -/
structure ScopeAcc where
  times : List String
  hosts : List String
  users : List String
  sources : List String
  ips : List String
deriving Inhabited

/-- One iteration of the scope collection loop for one alert: record the
alert's data, then (when its event resolves) the event's data. -/
def scopeStep (db : DB) (acc : ScopeAcc) (a : Alert) : ScopeAcc :=
  let acc :=
    { acc with
      times := acc.times ++ [a.created_at]
      hosts := acc.hosts ++ optStr a.host
      users := acc.users ++ optStr a.user
      sources := acc.sources ++ reqStr a.source }
  match lookupEvent db a with
  | some ev =>
      { acc with
        times := acc.times ++ [ev.received_at]
        hosts := acc.hosts ++ optStr ev.host
        users := acc.users ++ optStr ev.user
        sources := acc.sources ++ reqStr ev.source
        ips := acc.ips ++ (if ev.raw.isObj then _extract_ips ev.raw else []) }
  | none => acc

/-- The collected (not yet de-duplicated) scope data of an alert list. -/
def collectScope (db : DB) (alerts : List Alert) : ScopeAcc :=
  alerts.foldl (scopeStep db) ⟨[], [], [], [], []⟩

/-- Python `min` over a non-empty list, first minimum kept. -/
def listMin (dflt : String) : List String → String
  | [] => dflt
  | x :: xs => xs.foldl (fun m y => if strLT y m then y else m) x

/-- Python `max` over a non-empty list, first maximum kept. -/
def listMax (dflt : String) : List String → String
  | [] => dflt
  | x :: xs => xs.foldl (fun m y => if strLT m y then y else m) x

/-- The scope object of the packet (lines 125-150). -/
def scopeOf (db : DB) (iid : String) (inc : Incident) : Scope :=
  let acc := collectScope db (linkedAlerts db iid)
  { window_start := if acc.times.isEmpty then inc.created_at else listMin "" acc.times
    window_end := if acc.times.isEmpty then inc.updated_at else listMax "" acc.times
    hosts := _uniq acc.hosts
    users := _uniq acc.users
    sources := _uniq acc.sources
    ips := _uniq acc.ips }

/-- The timeline entry appended for an alert (lines 155-164). -/
def alertEntry (a : Alert) : TimelineEntry :=
  { time := a.created_at
    type := "alert"
    source := a.source
    host := a.host
    user := a.user
    summary := "[" ++ a.severity ++ "] " ++ a.rule_name ++ ": " ++ a.summary }

/-- The companion timeline entry appended for a resolvable event whose
payload is a mapping (lines 165-176). -/
def eventEntry (ev : Event) : TimelineEntry :=
  { time := ev.received_at
    type := "event"
    source := ev.source
    host := ev.host
    user := ev.user
    summary := _event_summary ev.raw }

/-- The timeline entries contributed by one alert: the alert entry first,
then the companion event entry when the event resolves and its payload is
a mapping. -/
def entriesFor (db : DB) (a : Alert) : List TimelineEntry :=
  alertEntry a ::
    (match lookupEvent db a with
     | some ev => if ev.raw.isObj then [eventEntry ev] else []
     | none => [])

/-- The pre-sort timeline list built by the `for a in alerts` loop. -/
def timelineOf (db : DB) : List Alert → List TimelineEntry
  | [] => []
  | a :: rest => entriesFor db a ++ timelineOf db rest

/-- The packet timeline: the built list stably sorted by its `time` field
(line 178; Python's `list.sort` is stable, as is insertion sort). -/
def packetTimeline (db : DB) (iid : String) : List TimelineEntry :=
  List.insertionSort entryLE (timelineOf db (linkedAlerts db iid))

/-- Model of `reporting.build_incident_packet`: `none` models the
`ValueError("incident not found")` raised when the incident id does not
resolve; every other path returns a packet. -/
def build_incident_packet (db : DB) (incident_id : String) : Option Packet :=
  match db.incidents.find? (fun i => i.id == incident_id) with
  | none => none
  | some inc =>
      some
        { incident := inc
          scope := scopeOf db incident_id inc
          alerts := linkedAlerts db incident_id
          timeline := packetTimeline db incident_id
          actions := sortedActions db incident_id }

/-- Model of the GET-incident-packet route (`main.get_incident_packet`):
the `ValueError` surfaces as an HTTP 404. -/
def get_incident_packet (db : DB) (incident_id : String) : Except Nat Packet :=
  match build_incident_packet db incident_id with
  | some p => .ok p
  | none => .error 404

theorem entriesFor_sublist (db : DB) {a : Alert} :
    ∀ {alerts : List Alert}, a ∈ alerts → List.Sublist (entriesFor db a) (timelineOf db alerts) := by
  intro alerts ha
  induction alerts with
  | nil => cases ha
  | cons b rest ih =>
    rw [timelineOf]
    rcases List.mem_cons.mp ha with heq | hmem
    · subst heq
      exact List.sublist_append_left _ _
    · exact (ih hmem).trans (List.sublist_append_right _ _)

/-- C5: the packet timeline is sorted non-decreasing by timestamp, the sort
is stable (any chain of entries already ordered in the pre-sort list keeps
its relative order), and an alert entry precedes its companion event entry
when both carry equal timestamps. -/
theorem C5_timeline_sorted (db : DB) (iid : String) (p : Packet)
    (h : build_incident_packet db iid = some p) :
    p.timeline.Pairwise entryLE ∧
    (∀ c : List TimelineEntry, c.Pairwise entryLE →
        List.Sublist c (timelineOf db (linkedAlerts db iid)) → List.Sublist c p.timeline) ∧
    (∀ a ∈ linkedAlerts db iid, ∀ ev, lookupEvent db a = some ev →
        ev.raw.isObj = true → a.created_at = ev.received_at →
        List.Sublist [alertEntry a, eventEntry ev] p.timeline) := by
  unfold build_incident_packet at h
  cases hfind : db.incidents.find? (fun i => i.id == iid) with
  | none => rw [hfind] at h; cases h
  | some inc =>
    rw [hfind] at h
    injection h with h
    subst h
    refine ⟨?_, ?_, ?_⟩
    · exact List.sorted_insertionSort entryLE _
    · intro c hc hsub
      exact List.sublist_insertionSort hc hsub
    · intro a ha ev hev hobj heq
      apply List.pair_sublist_insertionSort
      · show entryLE (alertEntry a) (eventEntry ev)
        show strLE a.created_at ev.received_at = true
        rw [heq]
        exact strLE_refl _
      · have hent : entriesFor db a = [alertEntry a, eventEntry ev] := by
          rw [entriesFor, hev]
          simp [hobj]
        rw [← hent]
        exact entriesFor_sublist db ha

theorem uniqAux_sublist : ∀ (l seen : List String), List.Sublist (uniqAux seen l) l := by
  intro l
  induction l with
  | nil => intro seen; exact List.Sublist.refl _
  | cons x xs ih =>
    intro seen
    rw [uniqAux]
    split
    · exact (ih seen).trans (List.sublist_cons_self x xs)
    · split
      · exact (ih seen).trans (List.sublist_cons_self x xs)
      · exact List.Sublist.cons₂ x (ih (x :: seen))

theorem uniqAux_not_mem_seen :
    ∀ (l seen : List String) (x : String), x ∈ uniqAux seen l → x ∉ seen := by
  intro l
  induction l with
  | nil => intro seen x hx; cases hx
  | cons y ys ih =>
    intro seen x hx
    rw [uniqAux] at hx
    split at hx
    · exact ih seen x hx
    · split at hx
      · exact ih seen x hx
      · rcases List.mem_cons.mp hx with heq | hmem
        · subst heq
          assumption
        · intro hseen
          exact ih (y :: seen) x hmem (List.mem_cons_of_mem y hseen)

theorem uniqAux_nodup : ∀ (l seen : List String), (uniqAux seen l).Nodup := by
  intro l
  induction l with
  | nil => intro seen; exact List.nodup_nil
  | cons y ys ih =>
    intro seen
    rw [uniqAux]
    split
    · exact ih seen
    · split
      · exact ih seen
      · refine List.Nodup.cons ?_ (ih (y :: seen))
        intro hmem
        exact uniqAux_not_mem_seen ys (y :: seen) y hmem (List.mem_cons_self y seen)

theorem uniqAux_ne_empty :
    ∀ (l seen : List String) (x : String), x ∈ uniqAux seen l → x ≠ "" := by
  intro l
  induction l with
  | nil => intro seen x hx; cases hx
  | cons y ys ih =>
    intro seen x hx
    rw [uniqAux] at hx
    split at hx
    · exact ih seen x hx
    · split at hx
      · exact ih seen x hx
      · rcases List.mem_cons.mp hx with heq | hmem
        · subst heq
          assumption
        · exact ih (y :: seen) x hmem

theorem uniqAux_mem_iff :
    ∀ (l seen : List String) (x : String),
      x ∈ uniqAux seen l ↔ (x ∈ l ∧ x ≠ "" ∧ x ∉ seen) := by
  intro l
  induction l with
  | nil => intro seen x; simp [uniqAux]
  | cons y ys ih =>
    intro seen x
    rw [uniqAux]
    split
    case isTrue hy =>
      subst hy
      rw [ih seen x]
      simp only [List.mem_cons]
      constructor
      · rintro ⟨h1, h2, h3⟩
        exact ⟨Or.inr h1, h2, h3⟩
      · rintro ⟨h1 | h1, h2, h3⟩
        · exact absurd h1 h2
        · exact ⟨h1, h2, h3⟩
    case isFalse hy =>
      split
      case isTrue hseen =>
        rw [ih seen x]
        simp only [List.mem_cons]
        constructor
        · rintro ⟨h1, h2, h3⟩
          exact ⟨Or.inr h1, h2, h3⟩
        · rintro ⟨h1 | h1, h2, h3⟩
          · subst h1
            exact absurd hseen h3
          · exact ⟨h1, h2, h3⟩
      case isFalse hseen =>
        simp only [List.mem_cons, ih (y :: seen) x]
        constructor
        · rintro (rfl | ⟨h1, h2, h3⟩)
          · exact ⟨Or.inl rfl, hy, hseen⟩
          · exact ⟨Or.inr h1, h2, fun hs => h3 (Or.inr hs)⟩
        · rintro ⟨h1 | h1, h2, h3⟩
          · exact Or.inl h1
          · by_cases hxy : x = y
            · exact Or.inl hxy
            · exact Or.inr ⟨h1, h2, fun hc => hc.elim hxy h3⟩

theorem uniqAux_pairwise_indexOf :
    ∀ (l seen : List String),
      (uniqAux seen l).Pairwise (fun x y => l.indexOf x < l.indexOf y) := by
  intro l
  induction l with
  | nil => intro seen; exact List.Pairwise.nil
  | cons y ys ih =>
    intro seen
    rw [uniqAux]
    split
    case isTrue hy =>
      refine (ih seen).imp_of_mem ?_
      intro a b ha hb hlt
      have hay : y ≠ a := fun hc => uniqAux_ne_empty ys seen a ha (hc.symm.trans hy)
      have hby : y ≠ b := fun hc => uniqAux_ne_empty ys seen b hb (hc.symm.trans hy)
      rw [List.indexOf_cons_ne ys hay, List.indexOf_cons_ne ys hby]
      exact Nat.succ_lt_succ hlt
    case isFalse hy =>
      split
      case isTrue hseen =>
        refine (ih seen).imp_of_mem ?_
        intro a b ha hb hlt
        have hay : y ≠ a := fun hc => uniqAux_not_mem_seen ys seen a ha (hc ▸ hseen)
        have hby : y ≠ b := fun hc => uniqAux_not_mem_seen ys seen b hb (hc ▸ hseen)
        rw [List.indexOf_cons_ne ys hay, List.indexOf_cons_ne ys hby]
        exact Nat.succ_lt_succ hlt
      case isFalse hseen =>
        rw [List.pairwise_cons]
        constructor
        · intro b hb
          have hby : y ≠ b := fun hc =>
            uniqAux_not_mem_seen ys (y :: seen) b hb (List.mem_cons.mpr (Or.inl hc.symm))
          rw [List.indexOf_cons_self, List.indexOf_cons_ne ys hby]
          exact Nat.succ_pos _
        · refine (ih (y :: seen)).imp_of_mem ?_
          intro a b ha hb hlt
          have hay : y ≠ a := fun hc =>
            uniqAux_not_mem_seen ys (y :: seen) a ha (List.mem_cons.mpr (Or.inl hc.symm))
          have hby : y ≠ b := fun hc =>
            uniqAux_not_mem_seen ys (y :: seen) b hb (List.mem_cons.mpr (Or.inl hc.symm))
          rw [List.indexOf_cons_ne ys hay, List.indexOf_cons_ne ys hby]
          exact Nat.succ_lt_succ hlt

/-- The full characterization of `_uniq`: its output is duplicate-free, a
sublist of the input, contains exactly the non-empty input values, and
lists them in strictly increasing order of first occurrence in the input
(keep-first de-duplication). -/
theorem uniq_firstSeen (l : List String) :
    (_uniq l).Nodup ∧ List.Sublist (_uniq l) l ∧
    (∀ x, x ∈ _uniq l ↔ (x ∈ l ∧ x ≠ "")) ∧
    (_uniq l).Pairwise (fun x y => l.indexOf x < l.indexOf y) :=
  ⟨uniqAux_nodup l [], uniqAux_sublist l [],
   fun x => by rw [_uniq, uniqAux_mem_iff l [] x]; simp,
   uniqAux_pairwise_indexOf l []⟩

theorem collectIpsAux_eq_nil (raw : Json) :
    ∀ (ks : List String), (∀ k ∈ ks, raw.getObj k = none) → collectIpsAux raw ks = [] := by
  intro ks
  induction ks with
  | nil => intro _; rfl
  | cons k rest ih =>
    intro h
    rw [collectIpsAux, ih (fun k' hk' => h k' (List.mem_cons_of_mem k hk'))]
    rw [ipContribution, h k (List.mem_cons_self k rest)]
    rfl

/-- C6: every scope list of a built packet is duplicate-free, is a sublist
of the collected occurrence list, contains exactly the non-empty collected
values, and lists them in strictly increasing order of first occurrence in
the collected occurrence list — i.e. keep-first de-duplication preserving
first-seen order; and a payload with none of the recognized IP-bearing
keys contributes an empty IP list, never a null or an error. -/
theorem C6_scope_dedup (db : DB) (iid : String) (p : Packet)
    (h : build_incident_packet db iid = some p) :
    (p.scope.hosts.Nodup ∧
     List.Sublist p.scope.hosts (collectScope db (linkedAlerts db iid)).hosts ∧
     (∀ x, x ∈ p.scope.hosts ↔
       (x ∈ (collectScope db (linkedAlerts db iid)).hosts ∧ x ≠ "")) ∧
     p.scope.hosts.Pairwise (fun x y =>
       (collectScope db (linkedAlerts db iid)).hosts.indexOf x <
         (collectScope db (linkedAlerts db iid)).hosts.indexOf y)) ∧
    (p.scope.users.Nodup ∧
     List.Sublist p.scope.users (collectScope db (linkedAlerts db iid)).users ∧
     (∀ x, x ∈ p.scope.users ↔
       (x ∈ (collectScope db (linkedAlerts db iid)).users ∧ x ≠ "")) ∧
     p.scope.users.Pairwise (fun x y =>
       (collectScope db (linkedAlerts db iid)).users.indexOf x <
         (collectScope db (linkedAlerts db iid)).users.indexOf y)) ∧
    (p.scope.sources.Nodup ∧
     List.Sublist p.scope.sources (collectScope db (linkedAlerts db iid)).sources ∧
     (∀ x, x ∈ p.scope.sources ↔
       (x ∈ (collectScope db (linkedAlerts db iid)).sources ∧ x ≠ "")) ∧
     p.scope.sources.Pairwise (fun x y =>
       (collectScope db (linkedAlerts db iid)).sources.indexOf x <
         (collectScope db (linkedAlerts db iid)).sources.indexOf y)) ∧
    (p.scope.ips.Nodup ∧
     List.Sublist p.scope.ips (collectScope db (linkedAlerts db iid)).ips ∧
     (∀ x, x ∈ p.scope.ips ↔
       (x ∈ (collectScope db (linkedAlerts db iid)).ips ∧ x ≠ "")) ∧
     p.scope.ips.Pairwise (fun x y =>
       (collectScope db (linkedAlerts db iid)).ips.indexOf x <
         (collectScope db (linkedAlerts db iid)).ips.indexOf y)) ∧
    (∀ raw : Json, (∀ k ∈ ipKeys, raw.getObj k = none) → _extract_ips raw = []) := by
  unfold build_incident_packet at h
  cases hfind : db.incidents.find? (fun i => i.id == iid) with
  | none => rw [hfind] at h; cases h
  | some inc =>
    rw [hfind] at h
    injection h with h
    subst h
    refine ⟨?_, ?_, ?_, ?_, ?_⟩
    · exact ⟨(uniq_firstSeen _).1, (uniq_firstSeen _).2.1,
        (uniq_firstSeen _).2.2.1, (uniq_firstSeen _).2.2.2⟩
    · exact ⟨(uniq_firstSeen _).1, (uniq_firstSeen _).2.1,
        (uniq_firstSeen _).2.2.1, (uniq_firstSeen _).2.2.2⟩
    · exact ⟨(uniq_firstSeen _).1, (uniq_firstSeen _).2.1,
        (uniq_firstSeen _).2.2.1, (uniq_firstSeen _).2.2.2⟩
    · exact ⟨(uniq_firstSeen _).1, (uniq_firstSeen _).2.1,
        (uniq_firstSeen _).2.2.1, (uniq_firstSeen _).2.2.2⟩
    · intro raw hk
      unfold _extract_ips
      rw [collectIpsAux_eq_nil raw ipKeys hk]
      rfl

/-- C7: the packet route fails with a 404 iff the incident id does not
resolve to an existing incident, and returns a packet exactly when it
does. -/
theorem C7_packet_notfound (db : DB) (iid : String) :
    (get_incident_packet db iid = .error 404 ↔
      db.incidents.find? (fun i => i.id == iid) = none) ∧
    ((∃ p, get_incident_packet db iid = .ok p) ↔
      (db.incidents.find? (fun i => i.id == iid)).isSome = true) := by
  unfold get_incident_packet build_incident_packet
  cases hfind : db.incidents.find? (fun i => i.id == iid) <;> simp

/-- Concrete event for the packet witnesses; its timestamp equals the
alert's and its payload has a `message` key. -/
def c5event : Event :=
  { id := "e1", received_at := "t5", source := "s", host := some "h", user := none,
    raw := Json.obj [("message", Json.str "hello")] }

/-- Concrete alert for the packet witnesses. -/
def c5alert : Alert :=
  { id := "a1", created_at := "t5", rule_id := "r1", rule_name := "rn", severity := "high",
    event_id := "e1", source := "s", host := some "h", user := none, summary := "sm" }

/-- Concrete incident for the packet witnesses. -/
def c5inc : Incident :=
  { id := "i1", created_at := "t0", updated_at := "t9", title := "T", severity := "high",
    status := "open", description := "" }

/-- Concrete store for the packet witnesses. -/
def c5db : DB :=
  { incidents := [c5inc], alerts := [c5alert],
    incident_alerts := [{ incident_id := "i1", alert_id := "a1", added_at := "t6" }],
    incident_actions := [], events := [c5event], evidence := [] }

/-- The packet the concrete store produces. -/
def c5packet : Packet := (build_incident_packet c5db "i1").getD default

theorem C5_timeline_sorted_witness :
    build_incident_packet c5db "i1" = some c5packet ∧
    c5packet.timeline.Pairwise entryLE ∧
    List.Sublist [alertEntry c5alert, eventEntry c5event] c5packet.timeline := by
  have h : build_incident_packet c5db "i1" = some c5packet := rfl
  refine ⟨h, (C5_timeline_sorted c5db "i1" c5packet h).1, ?_⟩
  exact (C5_timeline_sorted c5db "i1" c5packet h).2.2 c5alert (by decide) c5event rfl rfl rfl

theorem C6_scope_dedup_witness :
    build_incident_packet c5db "i1" = some c5packet ∧
    c5packet.scope.hosts.Nodup ∧
    (∀ x, x ∈ c5packet.scope.hosts ↔
      (x ∈ (collectScope c5db (linkedAlerts c5db "i1")).hosts ∧ x ≠ "")) ∧
    c5packet.scope.hosts.Pairwise (fun x y =>
      (collectScope c5db (linkedAlerts c5db "i1")).hosts.indexOf x <
        (collectScope c5db (linkedAlerts c5db "i1")).hosts.indexOf y) ∧
    c5packet.scope.ips.Nodup ∧
    (∀ k ∈ ipKeys, (Json.obj [("message", Json.str "hi")]).getObj k = none) ∧
    _extract_ips (Json.obj [("message", Json.str "hi")]) = [] := by
  have h : build_incident_packet c5db "i1" = some c5packet := rfl
  have hk : ∀ k ∈ ipKeys, (Json.obj [("message", Json.str "hi")]).getObj k = none := by
    intro k hk
    fin_cases hk <;> rfl
  exact ⟨h, (C6_scope_dedup c5db "i1" c5packet h).1.1,
    (C6_scope_dedup c5db "i1" c5packet h).1.2.2.1,
    (C6_scope_dedup c5db "i1" c5packet h).1.2.2.2,
    (C6_scope_dedup c5db "i1" c5packet h).2.2.2.1.1, hk,
    (C6_scope_dedup c5db "i1" c5packet h).2.2.2.2 _ hk⟩


/-- The fixed logical filename used by `write_packet_evidence`
(`f"{incident_id}/incident-packet.json"`). -/
def packetFilename (incident_id : String) : String :=
  incident_id ++ "/incident-packet.json"

/-- The `(incident_id, filename, sha256)` existence check of
`write_packet_evidence` lines 236-241. -/
def evMatches (iid fn sha : String) (e : EvidenceFile) : Bool :=
  e.incident_id == iid && e.filename == fn && e.sha256 == sha

/-- Model of `reporting.write_packet_evidence` restricted to its effect on
the `EvidenceFile` table.  `payload` is the serialized packet (the
deterministic `json.dumps(packet, indent=2, ...)` bytes as a string);
`hash` models `hashlib.sha256(...).hexdigest()` and is a parameter because
the claims are hash-algorithm-agnostic; `fresh` supplies the row's
generated `(id, created_at)`.  The blob write to disk is outside the
table and not modelled. -/
def write_packet_evidence (hash : String → String) (fresh : String × String)
    (incident_id payload : String) (rows : List EvidenceFile) : List EvidenceFile :=
  match rows.find? (evMatches incident_id (packetFilename incident_id) (hash payload)) with
  | some _ => rows
  | none =>
      rows ++ [{ id := fresh.1, incident_id := incident_id, created_at := fresh.2,
                 filename := packetFilename incident_id, content_type := "application/json",
                 sha256 := hash payload, size_bytes := payload.utf8ByteSize }]

/-- C4: writing the same packet content twice records exactly one evidence
row for its `(incident_id, filename, sha256)` (indeed the second write is a
no-op), while a subsequent packet with different serialized content (and
hence a different content hash) adds a distinct row and retains all prior
rows. -/
theorem C4_evidence_idempotent (hash : String → String) (f1 f2 f3 : String × String)
    (iid p p2 : String) (rows rows1 rows2 rows3 : List EvidenceFile)
    (h1 : rows1 = write_packet_evidence hash f1 iid p rows)
    (h2 : rows2 = write_packet_evidence hash f2 iid p rows1)
    (h3 : rows3 = write_packet_evidence hash f3 iid p2 rows2)
    (h0 : rows.countP (evMatches iid (packetFilename iid) (hash p)) = 0)
    (hne : hash p ≠ hash p2) :
    rows2.countP (evMatches iid (packetFilename iid) (hash p)) = 1 ∧
    rows2 = rows1 ∧
    List.IsPrefix rows2 rows3 ∧
    (∃ e1 e2, e1 ∈ rows3 ∧ e2 ∈ rows3 ∧
      e1.incident_id = iid ∧ e2.incident_id = iid ∧
      e1.filename = packetFilename iid ∧ e2.filename = packetFilename iid ∧
      e1.sha256 = hash p ∧ e2.sha256 = hash p2 ∧ e1 ≠ e2) := by
  have hfind : rows.find? (evMatches iid (packetFilename iid) (hash p)) = none :=
    List.find?_eq_none.mpr (List.countP_eq_zero.mp h0)
  have hrows1 : rows1 = rows ++
      [{ id := f1.1, incident_id := iid, created_at := f1.2,
         filename := packetFilename iid, content_type := "application/json",
         sha256 := hash p, size_bytes := p.utf8ByteSize }] := by
    rw [h1]
    unfold write_packet_evidence
    rw [hfind]
  have hmatch1 : evMatches iid (packetFilename iid) (hash p)
      { id := f1.1, incident_id := iid, created_at := f1.2,
        filename := packetFilename iid, content_type := "application/json",
        sha256 := hash p, size_bytes := p.utf8ByteSize } = true := by
    simp [evMatches]
  have hcount1 : rows1.countP (evMatches iid (packetFilename iid) (hash p)) = 1 := by
    rw [hrows1, List.countP_append, h0, List.countP_cons_of_pos _ _ hmatch1]
    rfl
  have hfind1 : (rows1.find? (evMatches iid (packetFilename iid) (hash p))).isSome = true := by
    rw [List.find?_isSome]
    refine ⟨_, ?_, hmatch1⟩
    rw [hrows1]
    exact List.mem_append_right _ (List.mem_singleton_self _)
  have hrows2 : rows2 = rows1 := by
    rw [h2]
    unfold write_packet_evidence
    cases hf : rows1.find? (evMatches iid (packetFilename iid) (hash p)) with
    | some e => rfl
    | none => rw [hf] at hfind1; cases hfind1
  obtain ⟨e1, he1mem, he1p⟩ := List.countP_pos_iff.mp (by rw [hcount1]; exact Nat.one_pos)
  simp only [evMatches, Bool.and_eq_true, beq_iff_eq] at he1p
  obtain ⟨⟨he1i, he1f⟩, he1s⟩ := he1p
  refine ⟨by rw [hrows2]; exact hcount1, hrows2, ?_, ?_⟩
  case _ =>
    rw [h3]
    unfold write_packet_evidence
    cases hf2 : rows2.find? (evMatches iid (packetFilename iid) (hash p2)) with
    | some e => exact List.prefix_refl _
    | none => exact List.prefix_append _ _
  case _ =>
    have he1mem2 : e1 ∈ rows2 := by rw [hrows2]; exact he1mem
    rw [h3]
    unfold write_packet_evidence
    cases hf2 : rows2.find? (evMatches iid (packetFilename iid) (hash p2)) with
    | some e2 =>
      have he2mem := List.mem_of_find?_eq_some hf2
      have he2p := List.find?_some hf2
      simp only [evMatches, Bool.and_eq_true, beq_iff_eq] at he2p
      obtain ⟨⟨he2i, he2f⟩, he2s⟩ := he2p
      exact ⟨e1, e2, he1mem2, he2mem, he1i, he2i, he1f, he2f, he1s, he2s,
        fun hc => hne (by rw [← he1s, hc, he2s])⟩
    | none =>
      refine ⟨e1, _, List.mem_append_left _ he1mem2,
        List.mem_append_right _ (List.mem_singleton_self _),
        he1i, rfl, he1f, rfl, he1s, rfl, ?_⟩
      intro hc
      apply hne
      rw [← he1s, hc]

/-- Concrete write sequence for the C4 witness: the identity stands in for
the hash function, `"a"` and `"b"` for two serialized packet contents. -/
def c4rows1 : List EvidenceFile :=
  write_packet_evidence (fun s => s) ("ev1", "t1") "i1" "a" []

/-- Second write of the same content. -/
def c4rows2 : List EvidenceFile :=
  write_packet_evidence (fun s => s) ("ev2", "t2") "i1" "a" c4rows1

/-- Third write, of different content. -/
def c4rows3 : List EvidenceFile :=
  write_packet_evidence (fun s => s) ("ev3", "t3") "i1" "b" c4rows2

theorem C4_evidence_idempotent_witness :
    List.countP (evMatches "i1" (packetFilename "i1") "a") [] = 0 ∧
    ("a" : String) ≠ "b" ∧
    (c4rows2.countP (evMatches "i1" (packetFilename "i1") "a") = 1 ∧
     c4rows2 = c4rows1 ∧
     List.IsPrefix c4rows2 c4rows3 ∧
     (∃ e1 e2, e1 ∈ c4rows3 ∧ e2 ∈ c4rows3 ∧
       e1.incident_id = "i1" ∧ e2.incident_id = "i1" ∧
       e1.filename = packetFilename "i1" ∧ e2.filename = packetFilename "i1" ∧
       e1.sha256 = "a" ∧ e2.sha256 = "b" ∧ e1 ≠ e2)) :=
  ⟨rfl, by decide,
   C4_evidence_idempotent (fun s => s) ("ev1", "t1") ("ev2", "t2") ("ev3", "t3")
     "i1" "a" "b" [] c4rows1 c4rows2 c4rows3 rfl rfl rfl rfl (by decide)⟩

/-- One row deletion issued by `main.delete_incident`, in program order. -/
inductive DeleteOp where
  | link : IncidentAlert → DeleteOp
  | act : IncidentAction → DeleteOp
  | inc : Incident → DeleteOp

/-- Model of `main.get_incident` (the GET-incident-by-id route): the store lookup
whose failure surfaces as a 404. -/
def get_incident (db : DB) (iid : String) : Except Nat Incident :=
  match db.incidents.find? (fun i => i.id == iid) with
  | none => .error 404
  | some i => .ok i

/-- Model of `main.delete_incident`: 404 when the incident does not
resolve; otherwise every `IncidentAlert` link and every `IncidentAction`
of the incident is deleted, then the incident itself.  The second
component records the deletions in program order. -/
def delete_incident (db : DB) (iid : String) : Except Nat (DB × List DeleteOp) :=
  match db.incidents.find? (fun i => i.id == iid) with
  | none => .error 404
  | some inc =>
      .ok
        ({ db with
            incidents := db.incidents.filter (fun i => !(i.id == iid))
            incident_alerts := db.incident_alerts.filter (fun l => !(l.incident_id == iid))
            incident_actions := db.incident_actions.filter (fun a => !(a.incident_id == iid)) },
         (db.incident_alerts.filter (fun l => l.incident_id == iid)).map DeleteOp.link ++
           (db.incident_actions.filter (fun a => a.incident_id == iid)).map DeleteOp.act ++
           [DeleteOp.inc inc])

/-- C8: deleting an incident deletes all of its links and actions strictly
before the incident record, every one of them is deleted, the resulting
store holds no row referencing the incident, and a subsequent lookup of the
incident id yields a 404. -/
theorem C8_delete_cascades (db : DB) (iid : String) (inc0 : Incident)
    (h : db.incidents.find? (fun i => i.id == iid) = some inc0) :
    ∃ db' child,
      delete_incident db iid = .ok (db', child ++ [DeleteOp.inc inc0]) ∧
      (∀ op ∈ child,
        (∃ l, op = DeleteOp.link l ∧ l.incident_id = iid) ∨
        (∃ a, op = DeleteOp.act a ∧ a.incident_id = iid)) ∧
      (∀ l ∈ db.incident_alerts, l.incident_id = iid → DeleteOp.link l ∈ child) ∧
      (∀ a ∈ db.incident_actions, a.incident_id = iid → DeleteOp.act a ∈ child) ∧
      (∀ l ∈ db'.incident_alerts, l.incident_id ≠ iid) ∧
      (∀ a ∈ db'.incident_actions, a.incident_id ≠ iid) ∧
      (∀ i ∈ db'.incidents, i.id ≠ iid) ∧
      get_incident db' iid = .error 404 := by
  refine
    ⟨{ db with
        incidents := db.incidents.filter (fun i => !(i.id == iid))
        incident_alerts := db.incident_alerts.filter (fun l => !(l.incident_id == iid))
        incident_actions := db.incident_actions.filter (fun a => !(a.incident_id == iid)) },
      (db.incident_alerts.filter (fun l => l.incident_id == iid)).map DeleteOp.link ++
        (db.incident_actions.filter (fun a => a.incident_id == iid)).map DeleteOp.act,
      ?_, ?_, ?_, ?_, ?_, ?_, ?_, ?_⟩
  · unfold delete_incident
    rw [h]
  · intro op hop
    rcases List.mem_append.mp hop with hl | ha
    · obtain ⟨l, hlm, rfl⟩ := List.mem_map.mp hl
      exact Or.inl ⟨l, rfl, by
        have := (List.mem_filter.mp hlm).2
        simpa using this⟩
    · obtain ⟨a, ham, rfl⟩ := List.mem_map.mp ha
      exact Or.inr ⟨a, rfl, by
        have := (List.mem_filter.mp ham).2
        simpa using this⟩
  · intro l hl hli
    exact List.mem_append_left _
      (List.mem_map_of_mem _ (List.mem_filter.mpr ⟨hl, by simpa using hli⟩))
  · intro a ha hai
    exact List.mem_append_right _
      (List.mem_map_of_mem _ (List.mem_filter.mpr ⟨ha, by simpa using hai⟩))
  · intro l hl
    have := (List.mem_filter.mp hl).2
    simpa using this
  · intro a ha
    have := (List.mem_filter.mp ha).2
    simpa using this
  · intro i hi
    have := (List.mem_filter.mp hi).2
    simpa using this
  · unfold get_incident
    have : (db.incidents.filter (fun i => !(i.id == iid))).find?
        (fun i => i.id == iid) = none := by
      rw [List.find?_eq_none]
      intro i hi
      have := (List.mem_filter.mp hi).2
      simpa using this
    rw [this]

/-- Store for the C8 witness: one incident with two linked alerts and one
action (the spec's deletion scenario). -/
def c8db : DB :=
  { incidents := [c5inc]
    alerts := [c5alert, { c5alert with id := "a2" }]
    incident_alerts :=
      [{ incident_id := "i1", alert_id := "a1", added_at := "t6" },
       { incident_id := "i1", alert_id := "a2", added_at := "t7" }]
    incident_actions :=
      [{ id := "ac1", incident_id := "i1", created_at := "t8", actor := some "op",
         action_type := "note", summary := "checked", details := none }]
    events := []
    evidence := [] }

theorem C8_delete_cascades_witness :
    c8db.incidents.find? (fun i => i.id == "i1") = some c5inc ∧
    (∃ db' child,
      delete_incident c8db "i1" = .ok (db', child ++ [DeleteOp.inc c5inc]) ∧
      (∀ op ∈ child,
        (∃ l, op = DeleteOp.link l ∧ l.incident_id = "i1") ∨
        (∃ a, op = DeleteOp.act a ∧ a.incident_id = "i1")) ∧
      (∀ l ∈ c8db.incident_alerts, l.incident_id = "i1" → DeleteOp.link l ∈ child) ∧
      (∀ a ∈ c8db.incident_actions, a.incident_id = "i1" → DeleteOp.act a ∈ child) ∧
      (∀ l ∈ db'.incident_alerts, l.incident_id ≠ "i1") ∧
      (∀ a ∈ db'.incident_actions, a.incident_id ≠ "i1") ∧
      (∀ i ∈ db'.incidents, i.id ≠ "i1") ∧
      get_incident db' "i1" = .error 404) :=
  ⟨rfl, C8_delete_cascades c8db "i1" c5inc rfl⟩

/-- Outcome of `main.add_alert_to_incident` when both ids resolve. -/
inductive LinkStatus where
  | linked
  | alreadyLinked
deriving DecidableEq

/-- Model of `main.add_alert_to_incident` (the POST link-alert route):
404 when the incident or the alert does not resolve; an existing
`(incident_id, alert_id)` link returns the non-error `already-linked`
outcome leaving the store untouched; otherwise the link row is added and
the incident's `updated_at` is bumped to `now`. -/
def add_alert_to_incident (db : DB) (iid aid now : String) :
    Except Nat (LinkStatus × DB) :=
  match db.incidents.find? (fun i => i.id == iid) with
  | none => .error 404
  | some _ =>
      match db.alerts.find? (fun a => a.id == aid) with
      | none => .error 404
      | some _ =>
          match db.incident_alerts.find?
              (fun l => l.incident_id == iid && l.alert_id == aid) with
          | some _ => .ok (.alreadyLinked, db)
          | none =>
              .ok (.linked,
                { db with
                  incident_alerts :=
                    db.incident_alerts ++ [{ incident_id := iid, alert_id := aid, added_at := now }]
                  incidents := db.incidents.map
                    (fun i => if i.id == iid then { i with updated_at := now } else i) })

/-- Number of link rows for one `(incident_id, alert_id)` pair. -/
def countPair (links : List IncidentAlert) (iid aid : String) : Nat :=
  links.countP (fun l => l.incident_id == iid && l.alert_id == aid)

/-- C9: when the incident and the alert both exist and are not yet linked,
linking succeeds, and linking the same pair a second time returns the
non-error `already-linked` outcome, installs no new row, and leaves exactly
one `IncidentAlert` row for the pair. -/
theorem C9_link_idempotent (db : DB) (iid aid now now2 : String)
    (inc0 : Incident) (a0 : Alert)
    (hi : db.incidents.find? (fun i => i.id == iid) = some inc0)
    (ha : db.alerts.find? (fun a => a.id == aid) = some a0)
    (h0 : countPair db.incident_alerts iid aid = 0) :
    ∃ db1, add_alert_to_incident db iid aid now = .ok (.linked, db1) ∧
      add_alert_to_incident db1 iid aid now2 = .ok (.alreadyLinked, db1) ∧
      countPair db1.incident_alerts iid aid = 1 := by
  have hfind : db.incident_alerts.find?
      (fun l => l.incident_id == iid && l.alert_id == aid) = none :=
    List.find?_eq_none.mpr (List.countP_eq_zero.mp h0)
  have hmatch : (fun l : IncidentAlert => l.incident_id == iid && l.alert_id == aid)
      { incident_id := iid, alert_id := aid, added_at := now } = true := by simp
  refine
    ⟨{ db with
        incident_alerts :=
          db.incident_alerts ++ [{ incident_id := iid, alert_id := aid, added_at := now }]
        incidents := db.incidents.map
          (fun i => if i.id == iid then { i with updated_at := now } else i) },
      ?_, ?_, ?_⟩
  · unfold add_alert_to_incident
    rw [hi, ha, hfind]
  · have hpred : ((fun i : Incident => i.id == iid) ∘
        (fun i => if i.id == iid then { i with updated_at := now } else i)) =
        (fun i : Incident => i.id == iid) := by
      funext i
      by_cases hid : (i.id == iid) = true
      · simp [Function.comp, hid]
      · simp [Function.comp, hid]
    have hcons : List.find? (fun l : IncidentAlert => l.incident_id == iid && l.alert_id == aid)
        [{ incident_id := iid, alert_id := aid, added_at := now }] =
        some { incident_id := iid, alert_id := aid, added_at := now } :=
      List.find?_cons_of_pos _ hmatch
    unfold add_alert_to_incident
    dsimp only
    rw [List.find?_map, hpred, hi, ha, List.find?_append, hfind]
    simp only [Option.map_some', Option.none_or, hcons]
  · unfold countPair at h0 ⊢
    dsimp only
    rw [List.countP_append, h0]
    simp [List.countP_cons]

/-- Store for the C9 witness: the incident and the alert exist, no link
row yet. -/
def c9db : DB :=
  { incidents := [c5inc], alerts := [c5alert], incident_alerts := [],
    incident_actions := [], events := [], evidence := [] }

theorem C9_link_idempotent_witness :
    c9db.incidents.find? (fun i => i.id == "i1") = some c5inc ∧
    c9db.alerts.find? (fun a => a.id == "a1") = some c5alert ∧
    countPair c9db.incident_alerts "i1" "a1" = 0 ∧
    (∃ db1, add_alert_to_incident c9db "i1" "a1" "t7" = .ok (.linked, db1) ∧
      add_alert_to_incident db1 "i1" "a1" "t8" = .ok (.alreadyLinked, db1) ∧
      countPair db1.incident_alerts "i1" "a1" = 1) :=
  ⟨rfl, rfl, rfl, C9_link_idempotent c9db "i1" "a1" "t7" "t8" c5inc c5alert rfl rfl rfl⟩

end SecureOps
